import Mathlib

/-!
Verification of the values-driven secrets-management core of monobase-infra.

The development shallowly embeds the TypeScript sources:
  * `scripts/secrets/scanner.ts`  (discovery scanner),
  * the generator module (charsets, password/key/token/base64 generation),
  * the GCP provider module (`secretExists`, `getSecretStatus`, `checkSecrets`,
    `createSecret`, `updateSecret`, `upsertSecret`),
  * the validator module (`getExternalSecretStatus`, `validateExternalSecrets`,
    `waitForExternalSecretSync`),
  * the orchestrating commands of `scripts/secrets.ts`
    (`checkCommand`, `generateCommand`, `validateCommand`, `syncCommand`).

YAML/JSON data is modelled by an inductive `JValue` with JavaScript truthiness;
file reads, YAML parse failures, interactive prompts, randomness and cluster
queries are inputs (oracles), so every function here is a pure, executable
translation of the corresponding source function.
-/


set_option autoImplicit false

namespace Monobase

/-- A JavaScript/YAML value as the scanner sees it after `yaml.parse`. -/
inductive JValue where
  | null
  | bool (b : Bool)
  | str (s : String)
  | num (n : Int)
  | arr (items : List JValue)
  | obj (fields : List (String × JValue))

/-- Property access `v[k]`: defined fields of objects; everything else
(including arrays, whose elements are indexed, not named) gives `undefined`,
modelled as `none`. -/
def JValue.field : JValue → String → Option JValue
  | .obj fields, k => fields.lookup k
  | _, _ => none

/-- JavaScript truthiness of a value. -/
def JValue.truthy : JValue → Bool
  | .null => false
  | .bool b => b
  | .str s => !(s == "")
  | .num n => !(n == 0)
  | .arr _ => true
  | .obj _ => true

/-- Truthiness of a possibly-`undefined` value (`undefined` is falsy). -/
def truthyO : Option JValue → Bool
  | none => false
  | some v => v.truthy

/-- `typeof v === "object"` (true for objects, arrays and `null`). -/
def JValue.typeofObject : JValue → Bool
  | .null => true
  | .arr _ => true
  | .obj _ => true
  | _ => false

/-- JavaScript string coercion, applied where the TypeScript string-typed
fields are consumed (template literals, map keys).  For the shapes the
scanner recognises the coerced values are already strings. -/
def JValue.jsStr : JValue → String
  | .str s => s
  | .bool true => "true"
  | .bool false => "false"
  | .null => "null"
  | .num n => toString n
  | .arr _ => "[array]"
  | .obj _ => "[object Object]"

/-- Coercion of a possibly-`undefined` value (`String(undefined)`). -/
def jsStrO : Option JValue → String
  | none => "undefined"
  | some v => v.jsStr

/-- The JavaScript `x || d` default: the field when truthy, else `d`. -/
def jsOr (v : Option JValue) (d : JValue) : JValue :=
  match v with
  | some x => if x.truthy then x else d
  | none => d

/-- `Object.entries`: named fields of an object, index/value pairs of an
array, nothing for primitives. -/
def JValue.entries : JValue → List (String × JValue)
  | .obj fields => fields
  | .arr items => items.enum.map (fun p => (toString p.1, p.2))
  | _ => []

/-- One secret discovered from the values files
(`DiscoveredSecret` in `scanner.ts`).  `remoteKey` stores the coerced field
value; `generator`, `secretStore`, `refreshInterval` and `ns` (the source's
`namespace` field) keep the raw values the scanner copied. -/
structure DiscoveredSecret where
  sourceFile : String
  deployment : String
  chart : String
  environment : Option String
  remoteKey : String
  generator : Option JValue
  secretStore : JValue
  refreshInterval : JValue
  ns : Option JValue

/-- `isSingleSecretConfig` (Pattern 1): a truthy object with a boolean
`enabled` and a string `remoteKey`. -/
def isSingleSecretConfig (v : JValue) : Bool :=
  v.truthy && v.typeofObject &&
    (match v.field "enabled" with | some (.bool _) => true | _ => false) &&
    (match v.field "remoteKey" with | some (.str _) => true | _ => false)

/-- `isArraySecretsConfig` (Pattern 2): a truthy object with a boolean
`enabled` and a non-empty `secrets` array. -/
def isArraySecretsConfig (v : JValue) : Bool :=
  v.truthy && v.typeofObject &&
    (match v.field "enabled" with | some (.bool _) => true | _ => false) &&
    (match v.field "secrets" with
     | some (.arr items) => decide (0 < items.length)
     | _ => false)

/-- `extractSecretsFromChart`: reads `chartConfig.externalSecrets`, bails out
when the block is absent, falsy or its `enabled` field is falsy, then tries
Pattern 1 before Pattern 2 and otherwise produces nothing. -/
def extractSecretsFromChart (chartName : String) (chartConfig : JValue)
    (sourceFile deployment : String) (environment : Option String) :
    List DiscoveredSecret :=
  match chartConfig.field "externalSecrets" with
  | none => []
  | some es =>
    if !es.truthy then [] else
    if !truthyO (es.field "enabled") then [] else
    let secretStore := jsOr (es.field "secretStore") (.str "gcp-secretstore")
    let refreshInterval := jsOr (es.field "refreshInterval") (.str "1h")
    let ns := chartConfig.field "namespace"
    if isSingleSecretConfig es then
      [⟨sourceFile, deployment, chartName, environment,
        jsStrO (es.field "remoteKey"), es.field "generator",
        secretStore, refreshInterval, ns⟩]
    else if isArraySecretsConfig es then
      match es.field "secrets" with
      | some (.arr items) =>
        items.map (fun item =>
          ⟨sourceFile, deployment, chartName, environment,
           jsStrO (item.field "remoteKey"), item.field "generator",
           secretStore, refreshInterval, ns⟩)
      | _ => []
    else []

/-- A values file as input to the scanner: its path and the result of
reading + YAML-parsing it (`none` when either threw, which the source
swallows). -/
structure FileEntry where
  path : String
  doc : Option JValue

/-- Recognised environment tokens (last hyphen-separated token of the file
name). -/
def envTokens : List String :=
  ["staging", "production", "development", "dev", "stg", "prod"]

/-- If `pre` is a prefix of the second list, the remainder after it. -/
def dropPre : List Char → List Char → Option (List Char)
  | [], rest => some rest
  | _ :: _, [] => none
  | p :: ps, c :: cs => if p == c then dropPre ps cs else none

/-- Splitting engine for `jsSplit`, fuelled to stay structurally
recursive. -/
def splitFuel (sep : List Char) : Nat → List Char → List Char →
    List (List Char)
  | 0, s, acc => [acc.reverse ++ s]
  | _ + 1, [], acc => [acc.reverse]
  | fuel + 1, c :: cs, acc =>
    match dropPre sep (c :: cs) with
    | some rest => acc.reverse :: splitFuel sep fuel rest []
    | none => splitFuel sep fuel cs (c :: acc)

/-- JavaScript's `s.split(sep)` for a non-empty separator (every use in the
source passes one). -/
def jsSplit (s sep : String) : List String :=
  if sep == "" then [s]
  else (splitFuel sep.data (s.data.length + 1) s.data []).map String.mk

/-- Does `s` end with `post`?  (`String.endsWith`, restated over the
character lists so that it evaluates.) -/
def strEndsWith (s post : String) : Bool :=
  (dropPre post.data.reverse s.data.reverse).isSome

/-- Drop the last `n` characters (`String.dropRight`). -/
def strDropRight (s : String) (n : Nat) : String :=
  String.mk (s.data.take (s.data.length - n))

/-- `basename(p, ext)` as in Node's `path.basename`: last `/`-separated
segment, with `ext` stripped when it is a proper suffix. -/
def basename (p ext : String) : String :=
  let b := (jsSplit p "/").getLastD p
  if b != ext && strEndsWith b ext then strDropRight b ext.length else b

/-- Whether a path contains the given directory marker as a substring
(the source uses `filePath.includes(...)`). -/
def pathHas (p marker : String) : Bool :=
  decide (1 < (jsSplit p marker).length)

/-- `parseValuesFile`: one document's secrets.  Parse failures (`doc = none`)
and non-object documents contribute nothing; infrastructure files are
special-cased to deployment `"infrastructure"` and additionally scanned at
the document root; top-level keys iterate in document order, skipping
`"global"` and `"argocd"`. -/
def parseValuesFile (f : FileEntry) : List DiscoveredSecret :=
  match f.doc with
  | none => []
  | some values =>
    if !(values.truthy && values.typeofObject) then [] else
    let fileName := basename f.path ".yaml"
    let parts := jsSplit fileName "-"
    let environment :=
      if 1 < parts.length && envTokens.contains (parts.getLastD "") then
        some (parts.getLastD "")
      else none
    let isInfrastructure := pathHas f.path "/infrastructure/"
    let deployment := if isInfrastructure then "infrastructure" else fileName
    let rootSecrets :=
      if isInfrastructure && truthyO (values.field "externalSecrets") then
        extractSecretsFromChart fileName values f.path deployment environment
      else []
    let chartSecrets :=
      values.entries.flatMap (fun kv =>
        if kv.1 == "global" || kv.1 == "argocd" then []
        else extractSecretsFromChart kv.1 kv.2 f.path deployment environment)
    rootSecrets ++ chartSecrets

/-- `ScanResults` of `scanValuesFiles`. -/
structure ScanResults where
  secrets : List DiscoveredSecret
  deploymentFiles : List String
  infrastructureFiles : List String
  totalSecrets : Nat
  secretsWithGenerator : Nat

/-- `secret.generator?.generate` truthiness. -/
def genEnabled (g : Option JValue) : Bool :=
  match g with
  | some gv => truthyO (gv.field "generate")
  | none => false

/-- The optional `--deployment` filter of `scanValuesFiles`. -/
def filterFiles (files : List FileEntry) (deployment : Option String) :
    List FileEntry :=
  match deployment with
  | some d => files.filter (fun f => basename f.path ".yaml" == d)
  | none => files

/-- `scanValuesFiles`: the file listing produced by the glob patterns is the
input; descriptors are accumulated in file order. -/
def scanValuesFiles (files : List FileEntry) (deployment : Option String) :
    ScanResults :=
  let fs := filterFiles files deployment
  let allSecrets := fs.foldl (fun acc f => acc ++ parseValuesFile f) []
  { secrets := allSecrets
    deploymentFiles := (fs.filter (fun f => pathHas f.path "/deployments/")).map
      (fun f => f.path)
    infrastructureFiles := (fs.filter (fun f => pathHas f.path "/infrastructure/")).map
      (fun f => f.path)
    totalSecrets := allSecrets.length
    secretsWithGenerator := (allSecrets.filter (fun s => genEnabled s.generator)).length }

/-! ### Generator module -/


/-- Character sets of the generator module. -/
def CHARSET_LOWERCASE : String := "abcdefghijklmnopqrstuvwxyz"

def CHARSET_UPPERCASE : String := "ABCDEFGHIJKLMNOPQRSTUVWXYZ"

def CHARSET_NUMBERS : String := "0123456789"

def CHARSET_SPECIAL : String := "!@#$%^&*()-_=+[]\x7b\x7d|;:,.<>?"

/-- `crypto.randomBytes(n)` with the randomness source as an oracle:
`n` octets (each value is reduced mod 256 because a byte is an octet). -/
def randomBytesM (n : Nat) (rnd : Nat → Nat) : List Nat :=
  (List.range n).map (fun i => rnd i % 256)

/-- `generatePassword(length, options)`: concatenates the enabled charsets,
errors when all are disabled, and picks `charset[byte % charset.length]`
per output character. -/
def generatePassword (length : Nat)
    (lowercase uppercase numbers special : Bool) (rnd : Nat → Nat) :
    Except String String :=
  let charset :=
    (if lowercase then CHARSET_LOWERCASE.data else []) ++
    (if uppercase then CHARSET_UPPERCASE.data else []) ++
    (if numbers then CHARSET_NUMBERS.data else []) ++
    (if special then CHARSET_SPECIAL.data else [])
  if charset.length == 0 then
    .error "At least one character set must be enabled"
  else
    .ok (String.mk ((randomBytesM length rnd).map
      (fun b => charset.getD (b % charset.length) 'a')))

/-- `generateKey(length)`: password charset minus the special characters. -/
def generateKey (length : Nat) (rnd : Nat → Nat) : Except String String :=
  generatePassword length true true true false rnd

/-- Lower-case hexadecimal digits. -/
def hexDigits : String := "0123456789abcdef"

/-- Hex encoding of one octet (two digits). -/
def byteToHex (b : Nat) : List Char :=
  [hexDigits.data.getD (b / 16) '0', hexDigits.data.getD (b % 16) '0']

/-- `generateToken(length)`: `randomBytes(length).toString("hex")`. -/
def generateToken (length : Nat) (rnd : Nat → Nat) : String :=
  String.mk ((randomBytesM length rnd).flatMap byteToHex)

/-- The standard base64 alphabet. -/
def BASE64_CHARS : String :=
  "ABCDEFGHIJKLMNOPQRSTUVWXYZabcdefghijklmnopqrstuvwxyz0123456789+/"

/-- One base64 digit. -/
def b64Char (n : Nat) : Char := BASE64_CHARS.data.getD n 'A'

/-- Standard base64 of a list of octets, with `=` padding, three octets to
four digits (Node's `Buffer.toString("base64")`). -/
def base64Chunks : List Nat → List Char
  | [] => []
  | [b1] => [b64Char (b1 / 4), b64Char (b1 % 4 * 16), '=', '=']
  | [b1, b2] =>
    [b64Char (b1 / 4), b64Char (b1 % 4 * 16 + b2 / 16), b64Char (b2 % 16 * 4), '=']
  | b1 :: b2 :: b3 :: rest =>
    b64Char (b1 / 4) :: b64Char (b1 % 4 * 16 + b2 / 16) ::
    b64Char (b2 % 16 * 4 + b3 / 64) :: b64Char (b3 % 64) :: base64Chunks rest

/-- `generateBase64String(length)`: base64 of `length` random octets. -/
def generateBase64String (length : Nat) (rnd : Nat → Nat) : String :=
  String.mk (base64Chunks (randomBytesM length rnd))

/-- `generateSecretValue(generator)` over the raw generator value the scanner
copied out of the document.  `generator.length || 32` makes an absent (or
zero) length 32; lengths that are not YAML non-negative integers are outside
the modelled domain (the source would crash in `randomBytes`).  An
unrecognised `type` throws (`Unknown generator type`). -/
def generateSecretValue (g : JValue) (rnd : Nat → Nat) : Except String String :=
  let length : Nat :=
    match g.field "length" with
    | some (.num n) => if n == 0 then 32 else n.toNat
    | _ => 32
  match g.field "type" with
  | some (.str "password") => generatePassword length true true true true rnd
  | some (.str "key") => generateKey length rnd
  | some (.str "token") => .ok (generateToken length rnd)
  | some (.str "string") => .ok (generateBase64String length rnd)
  | t => .error ("Unknown generator type: " ++ jsStrO t)

/-! ### Provider module (GCP Secret Manager) -/


/-- The remote backend, scoped to one project: secret ids mapped to their
version payloads in creation order. -/
abbrev Backend := List (String × List String)

/-- Errors the modelled GCP calls can raise. -/
inductive GcpError where
  | notFound
  | alreadyExists

/-- `secretExists`: `getSecret` succeeding, NOT_FOUND mapped to `false`. -/
def secretExists (remoteKey : String) (b : Backend) : Bool :=
  (b.lookup remoteKey).isSome

/-- `SecretStatus` returned by `getSecretStatus` (`lastUpdated` carries no
information the claims use and wall-clock time is not modelled). -/
structure SecretStatus where
  remoteKey : String
  exists' : Bool
  versionCount : Option Nat

/-- `getSecretStatus`: on NOT_FOUND a plain `exists: false` record; otherwise
the secret's versions are listed with `pageSize: 1` (at most one version, the
most recent, comes back) and the returned page's length is used as
`versionCount`. -/
def getSecretStatus (remoteKey : String) (b : Backend) : SecretStatus :=
  match b.lookup remoteKey with
  | none => { remoteKey := remoteKey, exists' := false, versionCount := none }
  | some versions =>
    { remoteKey := remoteKey
      exists' := true
      versionCount := some (versions.reverse.take 1).length }

/-- Order-preserving overwrite, the behaviour of `Map.set`: an existing key
keeps its position and gets the new value, a new key is appended. -/
def setA {α : Type} : List (String × α) → String → α → List (String × α)
  | [], k, v => [(k, v)]
  | (k', v') :: rest, k, v =>
    if k' == k then (k, v) :: rest else (k', v') :: setA rest k v

/-- `checkSecrets`: statuses for all keys collected into a map (the bounded
worker pool only schedules the calls; the collected statuses land in key
order). -/
def checkSecretsM (remoteKeys : List String) (b : Backend) :
    List (String × SecretStatus) :=
  remoteKeys.foldl (fun acc k => setA acc k (getSecretStatus k b)) []

/-- `createSecret`: creating an existing id fails (ALREADY_EXISTS), otherwise
the secret is created and a first version added. -/
def createSecret (remoteKey value : String) (b : Backend) :
    Except GcpError Backend :=
  if secretExists remoteKey b then .error .alreadyExists
  else .ok (b ++ [(remoteKey, [value])])

/-- Appends a version to an existing secret. -/
def addVersionTo (remoteKey value : String) : Backend → Option Backend
  | [] => none
  | (k, vs) :: rest =>
    if k == remoteKey then some ((k, vs ++ [value]) :: rest)
    else (addVersionTo remoteKey value rest).map (fun r => (k, vs) :: r)

/-- `updateSecret`: `addSecretVersion`, NOT_FOUND when the secret is
absent. -/
def updateSecret (remoteKey value : String) (b : Backend) :
    Except GcpError Backend :=
  match addVersionTo remoteKey value b with
  | some b' => .ok b'
  | none => .error .notFound

/-- `upsertSecret`: checks existence first, then dispatches to
`updateSecret` or `createSecret`, reporting whether it created. -/
def upsertSecret (remoteKey value : String) (b : Backend) :
    Except GcpError (Bool × Backend) :=
  if secretExists remoteKey b then
    (updateSecret remoteKey value b).map (fun b' => (false, b'))
  else
    (createSecret remoteKey value b).map (fun b' => (true, b'))

/-! ### Validator module (ExternalSecret status) -/


/-- A condition of an ExternalSecret's status, as parsed from `kubectl`
output. -/
structure RawCondition where
  type : String
  status : String
  reason : Option String
  message : Option String

/-- The relevant part of a live ExternalSecret object; `none` at the query
site models "the object does not exist" (`kubectl get` failing). -/
structure RawES where
  conditions : List RawCondition
  syncedTime : Option String
  bindingName : Option String

/-- `ExternalSecretStatus` (the source's `namespace` field is `ns`;
`lastSyncTime` keeps the raw timestamp string). -/
structure ExternalSecretStatus where
  name : String
  ns : String
  exists' : Bool
  synced : Bool
  ready : Bool
  secretCreated : Bool
  lastSyncTime : Option String
  errorMessage : Option String
  conditions : Option (List RawCondition)

/-- Truthiness of an optional string (`undefined` and `""` are falsy). -/
def truthyStrO : Option String → Bool
  | some s => !(s == "")
  | none => false

/-- `getExternalSecretStatus`: a missing object yields the fixed
`"ExternalSecret not found"` failure record; otherwise `Ready` and
`SecretSynced` conditions are looked up, and `errorMessage` is the failing
condition's (truthy) message, ready first. -/
def getExternalSecretStatusM (name ns : String) (raw : Option RawES) :
    ExternalSecretStatus :=
  match raw with
  | none =>
    { name := name, ns := ns, exists' := false, synced := false
      ready := false, secretCreated := false, lastSyncTime := none
      errorMessage := some "ExternalSecret not found", conditions := none }
  | some r =>
    let readyCondition := r.conditions.find? (fun c => c.type == "Ready")
    let ready := match readyCondition with
      | some c => c.status == "True"
      | none => false
    let syncedCondition := r.conditions.find? (fun c => c.type == "SecretSynced")
    let synced := match syncedCondition with
      | some c => c.status == "True"
      | none => false
    let lastSyncTime := match r.syncedTime with
      | some s => if s == "" then none else some s
      | none => none
    let secretCreated := truthyStrO r.bindingName
    let errorMessage :=
      if !ready && truthyStrO (readyCondition.bind (fun c => c.message)) then
        readyCondition.bind (fun c => c.message)
      else if !synced && truthyStrO (syncedCondition.bind (fun c => c.message)) then
        syncedCondition.bind (fun c => c.message)
      else none
    { name := name, ns := ns, exists' := true, synced := synced
      ready := ready, secretCreated := secretCreated
      lastSyncTime := lastSyncTime, errorMessage := errorMessage
      conditions := some r.conditions }

/-- Result of `waitForExternalSecretSync`. -/
structure SyncResult where
  synced : Bool
  ready : Bool
  error : Option String
deriving DecidableEq

/-- The poll loop runs while `elapsed < timeoutMs` with a 2000 ms sleep per
iteration, so it performs `⌈timeoutMs / 2000⌉` polls. -/
def pollCount (timeoutMs : Nat) : Nat := (timeoutMs + 1999) / 2000

/-- The body of `waitForExternalSecretSync`: per iteration, success when both
`ready` and `synced` hold, immediate failure when `errorMessage` is truthy,
otherwise sleep and poll again; exhausted fuel is the elapsed timeout. -/
def waitLoop (seq : Nat → ExternalSecretStatus) : Nat → Nat → SyncResult
  | _, 0 => ⟨false, false, some "Timeout waiting for ExternalSecret to sync"⟩
  | tick, fuel + 1 =>
    let status := seq tick
    if status.ready && status.synced then ⟨true, true, none⟩
    else if truthyStrO status.errorMessage then
      ⟨false, false, status.errorMessage⟩
    else waitLoop seq (tick + 1) fuel

/-- `waitForExternalSecretSync(name, namespace, _, timeoutMs)` with the
cluster's successive observations of the object as an oracle. -/
def waitForExternalSecretSyncM (name ns : String)
    (cluster : Nat → Option RawES) (timeoutMs : Nat) : SyncResult :=
  waitLoop (fun i => getExternalSecretStatusM name ns (cluster i)) 0
    (pollCount timeoutMs)

/-- `DeploymentValidationResult` (`ns` is the source's `namespace`). -/
structure DeploymentValidationResult where
  deployment : String
  ns : String
  externalSecrets : List ExternalSecretStatus
  allSynced : Bool
  allReady : Bool
  errorCount : Nat

/-- Overall `ValidationResult`. -/
structure ValidationResult where
  success : Bool
  deployments : List DeploymentValidationResult
  totalExternalSecrets : Nat
  syncedCount : Nat
  readyCount : Nat
  errorCount : Nat

/-- A remote-store or cluster call the orchestrator can make; used to state
which calls a run performs. -/
inductive ProviderOp where
  | initProvider
  | checkStatus (remoteKeys : List String)
  | create (remoteKey value : String)
  | addVersion (remoteKey value : String)
  | upsert (remoteKey value : String)
  | deleteSecret (remoteKey : String)
  | pollES (name ns : String)

/-- The mutating remote-store operations. -/
def isMutatingOp : ProviderOp → Bool
  | .create _ _ => true
  | .addVersion _ _ => true
  | .upsert _ _ => true
  | .deleteSecret _ => true
  | _ => false

/-- Is the op a blind `createSecret` call? -/
def isCreateOp : ProviderOp → Bool
  | .create _ _ => true
  | _ => false

/-- Is the op an `upsertSecret` call? -/
def isUpsertOp : ProviderOp → Bool
  | .upsert _ _ => true
  | _ => false

/-- Is the op a convergence poll (an ExternalSecret status read)? -/
def isPollOp : ProviderOp → Bool
  | .pollES _ _ => true
  | _ => false

/-- The remote key a mutating op touches. -/
def opKey : ProviderOp → String
  | .create k _ => k
  | .addVersion k _ => k
  | .upsert k _ => k
  | .deleteSecret k => k
  | _ => ""

/-- `secret.namespace || "default"`. -/
def nsStrOf (s : DiscoveredSecret) : String :=
  match s.ns with
  | some v => if v.truthy then v.jsStr else "default"
  | none => "default"

/-- The body of `validateExternalSecrets`' per-group loop: splits the group
key back into deployment and namespace, polls one `"<chart>-credentials"`
object per descriptor of the group, and stores the group's result keyed by
the deployment name alone (`deploymentResults.set(deployment, ...)`,
overwriting any earlier namespace's result for the same deployment). -/
def validateStep (cluster : String → String → Option RawES)
    (acc : List (String × DeploymentValidationResult) × List ProviderOp)
    (kv : String × List DiscoveredSecret) :
    List (String × DeploymentValidationResult) × List ProviderOp :=
  let parts := jsSplit kv.1 ":"
  let deployment := parts.getD 0 ""
  let ns := parts.getD 1 ""
  let statuses := kv.2.map (fun s =>
    getExternalSecretStatusM (s.chart ++ "-credentials") ns
      (cluster (s.chart ++ "-credentials") ns))
  let ops := kv.2.map (fun s =>
    ProviderOp.pollES (s.chart ++ "-credentials") ns)
  (setA acc.1 deployment
    { deployment := deployment, ns := ns, externalSecrets := statuses
      allSynced := statuses.all (fun st => st.synced)
      allReady := statuses.all (fun st => st.ready)
      errorCount := (statuses.filter (fun st => !st.ready)).length },
   acc.2 ++ ops)

/-- `validateExternalSecrets`: groups the descriptors by the string
`deployment + ":" + (namespace || "default")` in insertion order, runs
`validateStep` over the groups, and reduces the overall counts over the
stored (per-deployment) results.  Returns the poll ops performed alongside
the result. -/
def validateExternalSecretsM (secrets : List DiscoveredSecret)
    (cluster : String → String → Option RawES) :
    List ProviderOp × ValidationResult :=
  let grouped : List (String × List DiscoveredSecret) :=
    secrets.foldl (fun acc s =>
      let key := s.deployment ++ ":" ++ nsStrOf s
      setA acc key ((acc.lookup key).getD [] ++ [s])) []
  let stepped : List (String × DeploymentValidationResult) × List ProviderOp :=
    grouped.foldl (validateStep cluster) ([], [])
  let deployments := stepped.1.map (fun p => p.2)
  let totalExternalSecrets :=
    deployments.foldl (fun sum d => sum + d.externalSecrets.length) 0
  let syncedCount :=
    deployments.foldl
      (fun sum d => sum + (d.externalSecrets.filter (fun e => e.synced)).length) 0
  let readyCount :=
    deployments.foldl
      (fun sum d => sum + (d.externalSecrets.filter (fun e => e.ready)).length) 0
  let errorCount := deployments.foldl (fun sum d => sum + d.errorCount) 0
  (stepped.2,
   { success := errorCount == 0 && syncedCount == totalExternalSecrets
     deployments := deployments
     totalExternalSecrets := totalExternalSecrets
     syncedCount := syncedCount
     readyCount := readyCount
     errorCount := errorCount })

/-! ### Orchestrator (`scripts/secrets.ts` commands)

CLI wiring, logging and project-id detection perform no remote-store
operations and are not modelled; interactive prompts and randomness are
oracles.  `exited` records a `process.exit(1)` (which aborts the remaining
stages of `sync`). -/


/-- Outcome of one command: the provider/cluster calls it made, the backend
it left behind, and whether it exited the process. -/
structure CmdOut where
  ops : List ProviderOp
  backend : Backend
  exited : Bool

/-- `checkCommand`: aborts when the ClusterSecretStore is unconfigured;
otherwise scans, and unless `--dry-run` initializes the provider (abort on
auth failure) and batch-checks every discovered remote key.  The remainder
only prints. -/
def checkCommandM (dryRun configOk initOk : Bool) (files : List FileEntry)
    (dep : Option String) (b : Backend) : CmdOut :=
  if !configOk then ⟨[], b, true⟩ else
  let results := scanValuesFiles files dep
  if results.totalSecrets == 0 then ⟨[], b, false⟩ else
  if !dryRun && !initOk then ⟨[.initProvider], b, true⟩ else
  let initOps : List ProviderOp := if dryRun then [] else [.initProvider]
  let remoteKeys := results.secrets.map (fun s => s.remoteKey)
  let checkOps : List ProviderOp := if dryRun then [] else [.checkStatus remoteKeys]
  ⟨initOps ++ checkOps, b, false⟩

/-- The auto-generate half of `generateCommand`'s value collection: for each
missing secret with a generator, `generateSecretValue` fills the
`secretValues` map (keyed by remote key); a generator exception propagates
(the CLI's top-level catch then exits). -/
def autoGenLoop (rnd : Nat → Nat → Nat) :
    List (Nat × DiscoveredSecret) → List (String × String) →
    Except String (List (String × String))
  | [], acc => .ok acc
  | (i, s) :: rest, acc =>
    match s.generator with
    | some gv =>
      if gv.truthy then
        match generateSecretValue gv (rnd i) with
        | .ok v => autoGenLoop rnd rest (setA acc s.remoteKey v)
        | .error e => .error e
      else autoGenLoop rnd rest acc
    | none => autoGenLoop rnd rest acc

/-- The manual-input half: each remaining missing secret's value is read from
the interactive prompt. -/
def manualLoop (manual : String → String) :
    List DiscoveredSecret → List (String × String) → List (String × String)
  | [], acc => acc
  | s :: rest, acc => manualLoop manual rest (setA acc s.remoteKey (manual s.remoteKey))

/-- The write loop of `generateCommand`: one `createSecret` per collected
value; a failure is caught, logged and skipped (the key's backend state is
untouched and the created counter not incremented). -/
def createSecretsLoop : List (String × String) → Backend →
    List ProviderOp × Backend × Nat
  | [], b => ([], b, 0)
  | (k, v) :: rest, b =>
    match createSecret k v b with
    | .ok b' =>
      let r := createSecretsLoop rest b'
      (.create k v :: r.1, r.2.1, r.2.2 + 1)
    | .error _ =>
      let r := createSecretsLoop rest b
      (.create k v :: r.1, r.2.1, r.2.2)

/-- `generateCommand`: config gate, scan, provider init and batch status
check (both skipped under `--dry-run`, which uses an empty status map),
missing-secret partition, confirmation prompt (skipped with `--yes` or
`--dry-run`), the dry-run early return, then value collection and the
`createSecret` write loop. -/
def generateCommandM (dryRun yes configOk initOk confirmOk : Bool)
    (files : List FileEntry) (dep : Option String) (rnd : Nat → Nat → Nat)
    (manual : String → String) (b : Backend) : CmdOut :=
  if !configOk then ⟨[], b, true⟩ else
  let results := scanValuesFiles files dep
  if results.totalSecrets == 0 then ⟨[], b, false⟩ else
  if !dryRun && !initOk then ⟨[.initProvider], b, true⟩ else
  let initOps : List ProviderOp := if dryRun then [] else [.initProvider]
  let remoteKeys := results.secrets.map (fun s => s.remoteKey)
  let statuses := if dryRun then [] else checkSecretsM remoteKeys b
  let checkOps : List ProviderOp := if dryRun then [] else [.checkStatus remoteKeys]
  let opsBase := initOps ++ checkOps
  let missing := results.secrets.filter (fun s =>
    !(((statuses.lookup s.remoteKey).map (fun st => st.exists')).getD false))
  if missing.length == 0 then ⟨opsBase, b, false⟩ else
  if !yes && !dryRun && !confirmOk then ⟨opsBase, b, false⟩ else
  if dryRun then ⟨opsBase, b, false⟩ else
  let autoGenerate := missing.filter (fun s => genEnabled s.generator)
  let manualInput := missing.filter (fun s => !genEnabled s.generator)
  match autoGenLoop rnd autoGenerate.enum [] with
  | .error _ => ⟨opsBase, b, true⟩
  | .ok sv0 =>
    let secretValues := manualLoop manual manualInput sv0
    let created := createSecretsLoop secretValues b
    ⟨opsBase ++ created.1, created.2.1, false⟩

/-- `validateCommand`: scans, validates every discovered secret's delivery
object and exits with failure when the aggregate is unsuccessful. -/
def validateCommandM (files : List FileEntry) (dep : Option String)
    (cluster : String → String → Option RawES) (b : Backend) : CmdOut :=
  let results := scanValuesFiles files dep
  if results.totalSecrets == 0 then ⟨[], b, false⟩ else
  let v := validateExternalSecretsM results.secrets cluster
  ⟨v.1, b, !v.2.success⟩

/-- `syncCommand`: discover (scanner only, no provider calls, cannot exit),
check, generate, and — only outside `--dry-run` — validate; a
`process.exit` in a stage stops the pipeline. -/
def syncCommandM (dryRun yes configOk initOk confirmOk : Bool)
    (files : List FileEntry) (dep : Option String) (rnd : Nat → Nat → Nat)
    (manual : String → String) (cluster : String → String → Option RawES)
    (b : Backend) : CmdOut :=
  let c := checkCommandM dryRun configOk initOk files dep b
  if c.exited then c else
  let g := generateCommandM dryRun yes configOk initOk confirmOk files dep rnd manual c.backend
  if g.exited then ⟨c.ops ++ g.ops, g.backend, true⟩ else
  if !dryRun then
    let v := validateCommandM files dep cluster g.backend
    ⟨c.ops ++ g.ops ++ v.ops, v.backend, v.exited⟩
  else ⟨c.ops ++ g.ops, g.backend, false⟩

/-! ### Derived definitions and concrete fixtures -/

/-- A single-secret block whose enable flag is `false`: it satisfies the
source's Shape A predicate yet extraction yields no descriptor. -/
def exampleDisabledSingle : JValue :=
  JValue.obj [("enabled", .bool false), ("remoteKey", .str "env-db-password")]

/-- The enabled Shape A block of the witness. -/
def exampleEnabledSingle : JValue :=
  JValue.obj [("enabled", .bool true), ("remoteKey", .str "env-db-password")]

/-- The enabled Shape B block of the witness (two entries). -/
def exampleEnabledArray : JValue :=
  JValue.obj [("enabled", .bool true),
    ("secrets", .arr [JValue.obj [("remoteKey", .str "minio-access-key")],
                      JValue.obj [("remoteKey", .str "minio-secret-key")]])]

/-- A descriptor of deployment `app`, chart `c1`, namespace `ns1`. -/
def exampleNs1Secret : DiscoveredSecret :=
  ⟨"f.yaml", "app", "c1", none, "c1-key", none,
   .str "gcp-secretstore", .str "1h", some (.str "ns1")⟩

/-- A descriptor of the same deployment `app` in a second namespace. -/
def exampleNs2Secret : DiscoveredSecret :=
  ⟨"f.yaml", "app", "c2", none, "c2-key", none,
   .str "gcp-secretstore", .str "1h", some (.str "ns2")⟩

/-- The password charset: all four classes, in source concatenation order. -/
def passwordCharset : List Char :=
  CHARSET_LOWERCASE.data ++ CHARSET_UPPERCASE.data ++ CHARSET_NUMBERS.data ++
    CHARSET_SPECIAL.data

/-- The key charset: punctuation excluded. -/
def keyCharset : List Char :=
  CHARSET_LOWERCASE.data ++ CHARSET_UPPERCASE.data ++ CHARSET_NUMBERS.data

/-- A raw generator block as the scanner stores it. -/
def genSpec (t : String) (len : Option Int) : JValue :=
  JValue.obj ([("generate", .bool true), ("type", .str t)] ++
    (match len with
     | some n => [("length", JValue.num n)]
     | none => []))

/-- A well-formed deployment values file declaring one generated secret for
chart `db` (used by several concrete checks). -/
def exampleValuesFile : FileEntry :=
  ⟨"values/deployments/acme-staging.yaml",
   some (.obj [("db", .obj [("externalSecrets", .obj
     [("enabled", .bool true), ("remoteKey", .str "env-db-password"),
      ("generator", .obj
        [("generate", .bool true), ("type", .str "password")])])])])⟩

/-- A file whose read/YAML-parse failed. -/
def exampleMalformedFile : FileEntry :=
  ⟨"values/deployments/bad.yaml", none⟩

/-- Does a poll of this status exit the wait loop (either exit
condition)? -/
def pollExit (s : ExternalSecretStatus) : Bool :=
  (s.ready && s.synced) || truthyStrO s.errorMessage

/-- A delivery object whose `Ready` condition is false with message
`"boom"`. -/
def clusterErr : Nat → Option RawES :=
  fun _ => some ⟨[⟨"Ready", "False", none, some "boom"⟩], none, none⟩

/-- A delivery object with both conditions true. -/
def clusterOk : Nat → Option RawES :=
  fun _ => some ⟨[⟨"Ready", "True", none, none⟩,
                  ⟨"SecretSynced", "True", none, none⟩], none, none⟩

/-- A delivery object that never converges and never errors. -/
def clusterPend : Nat → Option RawES :=
  fun _ => some ⟨[], none, none⟩

/-- The descriptors the check stage reports missing: discovered secrets
whose batch status has no `exists` flag set. -/
def missingSecrets (files : List FileEntry) (dep : Option String)
    (b : Backend) : List DiscoveredSecret :=
  (scanValuesFiles files dep).secrets.filter (fun s =>
    !((((checkSecretsM ((scanValuesFiles files dep).secrets.map
          (fun s => s.remoteKey)) b).lookup s.remoteKey).map
        (fun st => st.exists')).getD false))

/-- The remote keys the check stage reports missing. -/
def missingRemoteKeys (files : List FileEntry) (dep : Option String)
    (b : Backend) : List String :=
  (missingSecrets files dep b).map (fun s => s.remoteKey)

/-! ### Helper lemmas -/


/-- `getD` at an in-bounds index returns an element of the list. -/
theorem getD_mem_of_lt (l : List Char) (n : Nat) (d : Char) (h : n < l.length) :
    l.getD n d ∈ l := by
  rw [List.getD_eq_getElem?_getD, List.getElem?_eq_getElem h]
  exact List.getElem_mem h

/-! ### C1 -/


/-- C1: for a remote key absent from the backend, `upsert(k, v1)` then
`upsert(k, v2)` indeed never errors (create, then add-version), and the
subsequent `status(k)` reports `exists = true` — but its `versionCount` is
`1`, not the claimed `2`: `getSecretStatus` lists versions with
`pageSize: 1`, so the page it measures never holds more than one version.
Evaluated here at the failing input (empty backend, key `"k"`). -/
theorem upsert_twice_status_versionCount_one :
    upsertSecret "k" "v1" [] = Except.ok (true, [("k", ["v1"])]) ∧
    upsertSecret "k" "v2" [("k", ["v1"])] =
      Except.ok (false, [("k", ["v1", "v2"])]) ∧
    (getSecretStatus "k" [("k", ["v1", "v2"])]).exists' = true ∧
    (getSecretStatus "k" [("k", ["v1", "v2"])]).versionCount = some 1 ∧
    (getSecretStatus "k" [("k", ["v1", "v2"])]).versionCount ≠ some 2 := by
  refine ⟨rfl, rfl, rfl, rfl, by decide⟩

/-! ### C4 -/


/-- C4, counterexample: a block structurally matching Shape A (boolean
enable flag plus remote-key string — the source's own `isSingleSecretConfig`
accepts it) with `enabled: false` yields zero descriptors, not exactly one:
`extractSecretsFromChart` first requires the `enabled` field to be truthy. -/
theorem singleShape_disabled_extracts_nothing :
    isSingleSecretConfig exampleDisabledSingle = true ∧
    extractSecretsFromChart "db"
      (JValue.obj [("externalSecrets", exampleDisabledSingle)])
      "values/deployments/acme.yaml" "acme" none = [] :=
  ⟨rfl, rfl⟩

/-- C4 (amended): for a chart configuration whose secrets block has a truthy
enable flag, a block matching Shape A yields exactly one descriptor (Shape A
is tried first, so this holds even if Shape B also matches); a block
matching Shape B but not Shape A yields exactly one descriptor per entry of
its `secrets` array, each inheriting the block's `secretStore` and
`refreshInterval` (with their defaults); a block matching neither yields
zero descriptors, and extraction is a total function (no error). -/
theorem extractSecrets_shape_counts
    (chartName sourceFile deployment : String) (environment : Option String)
    (cfg es : JValue)
    (hcfg : cfg.field "externalSecrets" = some es)
    (hen : es.field "enabled" = some (.bool true)) :
    (isSingleSecretConfig es = true →
      extractSecretsFromChart chartName cfg sourceFile deployment environment =
        [⟨sourceFile, deployment, chartName, environment,
          jsStrO (es.field "remoteKey"), es.field "generator",
          jsOr (es.field "secretStore") (.str "gcp-secretstore"),
          jsOr (es.field "refreshInterval") (.str "1h"),
          cfg.field "namespace"⟩]) ∧
    (∀ items, isSingleSecretConfig es = false → isArraySecretsConfig es = true →
      es.field "secrets" = some (.arr items) →
      (extractSecretsFromChart chartName cfg sourceFile deployment
          environment).length = items.length ∧
      ∀ d ∈ extractSecretsFromChart chartName cfg sourceFile deployment
          environment,
        d.secretStore = jsOr (es.field "secretStore") (.str "gcp-secretstore") ∧
        d.refreshInterval = jsOr (es.field "refreshInterval") (.str "1h")) ∧
    (isSingleSecretConfig es = false → isArraySecretsConfig es = false →
      extractSecretsFromChart chartName cfg sourceFile deployment
        environment = []) := by
  have hto : truthyO (es.field "enabled") = true := by rw [hen]; rfl
  refine ⟨?_, ?_, ?_⟩
  · intro h1
    have ht : es.truthy = true := by
      simp only [isSingleSecretConfig, Bool.and_eq_true] at h1
      exact h1.1.1.1
    simp only [extractSecretsFromChart, hcfg, ht, hto, Bool.not_true,
      Bool.false_eq_true, if_false, h1, if_true]
  · intro items h1 h2 hsec
    have ht : es.truthy = true := by
      simp only [isArraySecretsConfig, Bool.and_eq_true] at h2
      exact h2.1.1.1
    have hx : extractSecretsFromChart chartName cfg sourceFile deployment
        environment = items.map (fun item =>
          ⟨sourceFile, deployment, chartName, environment,
           jsStrO (item.field "remoteKey"), item.field "generator",
           jsOr (es.field "secretStore") (.str "gcp-secretstore"),
           jsOr (es.field "refreshInterval") (.str "1h"),
           cfg.field "namespace"⟩) := by
      simp only [extractSecretsFromChart, hcfg, ht, hto, Bool.not_true,
        Bool.false_eq_true, if_false, h1, h2, if_true, hsec]
    refine ⟨by rw [hx]; exact List.length_map .., ?_⟩
    intro d hd
    rw [hx, List.mem_map] at hd
    obtain ⟨item, -, rfl⟩ := hd
    exact ⟨rfl, rfl⟩
  · intro h1 h2
    by_cases ht : es.truthy = true
    · simp only [extractSecretsFromChart, hcfg, ht, hto, Bool.not_true,
        Bool.false_eq_true, if_false, h1, h2]
    · simp only [Bool.not_eq_true] at ht
      simp only [extractSecretsFromChart, hcfg, ht, Bool.not_false, if_true]

/-- C4 witness: the amended theorem applied to one concrete Shape A block
(one descriptor) and one concrete Shape B block with two entries (two
descriptors). -/
theorem extractSecrets_shape_counts_witness :
    (extractSecretsFromChart "db"
      (JValue.obj [("externalSecrets", exampleEnabledSingle)])
      "values/deployments/acme.yaml" "acme" none).length = 1 ∧
    (extractSecretsFromChart "minio"
      (JValue.obj [("externalSecrets", exampleEnabledArray)])
      "values/deployments/acme.yaml" "acme" none).length = 2 := by
  constructor
  · rw [(extractSecrets_shape_counts "db" "values/deployments/acme.yaml"
      "acme" none (JValue.obj [("externalSecrets", exampleEnabledSingle)])
      exampleEnabledSingle rfl rfl).1 rfl]
    rfl
  · exact (((extractSecrets_shape_counts "minio" "values/deployments/acme.yaml"
      "acme" none (JValue.obj [("externalSecrets", exampleEnabledArray)])
      exampleEnabledArray rfl rfl).2.1
      [JValue.obj [("remoteKey", .str "minio-access-key")],
       JValue.obj [("remoteKey", .str "minio-secret-key")]] rfl rfl rfl).1).trans rfl

/-! ### More helper lemmas: folds and ordered maps -/


/-- Accumulating with `++` in a left fold is flattening in order. -/
theorem foldl_append_eq_flatten {α β : Type} (f : α → List β) :
    ∀ (l : List α) (acc : List β),
      l.foldl (fun a x => a ++ f x) acc = acc ++ (l.map f).flatten := by
  intro l
  induction l with
  | nil => intro acc; simp
  | cons x xs ih => intro acc; simp [ih, List.append_assoc]

/-- Summing images in a left fold is summing the mapped list. -/
theorem foldl_add_map {α : Type} (f : α → Nat) :
    ∀ (l : List α) (a : Nat),
      l.foldl (fun s d => s + f d) a = a + (l.map f).sum := by
  intro l
  induction l with
  | nil => intro a; simp
  | cons x xs ih => intro a; simp [ih, Nat.add_assoc]

/-- An element of `setA l k v` is the new pair or an element of `l`. -/
theorem mem_setA {α : Type} (k : String) (v : α) :
    ∀ (l : List (String × α)) (p : String × α),
      p ∈ setA l k v → p = (k, v) ∨ p ∈ l := by
  intro l
  induction l with
  | nil => intro p hp; simp [setA] at hp; exact Or.inl hp
  | cons q rest ih =>
    intro p hp
    cases hk : (q.1 == k) with
    | true =>
      simp only [setA, hk, if_true] at hp
      rcases List.mem_cons.mp hp with h | h
      · exact Or.inl h
      · exact Or.inr (List.mem_cons_of_mem _ h)
    | false =>
      simp only [setA, hk, Bool.false_eq_true, if_false] at hp
      rcases List.mem_cons.mp hp with h | h
      · exact Or.inr (h ▸ List.mem_cons_self _ _)
      · rcases ih p h with h' | h'
        · exact Or.inl h'
        · exact Or.inr (List.mem_cons_of_mem _ h')

/-- A key of `setA l k v` is a key of `l` or the new key. -/
theorem keys_setA {α : Type} (k : String) (v : α)
    (l : List (String × α)) (a : String)
    (ha : a ∈ (setA l k v).map Prod.fst) : a ∈ l.map Prod.fst ∨ a = k := by
  rw [List.mem_map] at ha
  obtain ⟨p, hp, rfl⟩ := ha
  rcases mem_setA k v l p hp with h | h
  · exact Or.inr (by rw [h])
  · exact Or.inl (List.mem_map_of_mem _ h)

/-- `setA` preserves distinctness of the keys. -/
theorem nodup_keys_setA {α : Type} (k : String) (v : α) :
    ∀ (l : List (String × α)), (l.map Prod.fst).Nodup →
      ((setA l k v).map Prod.fst).Nodup := by
  intro l
  induction l with
  | nil => intro _; simp [setA]
  | cons q rest ih =>
    intro h
    rw [List.map_cons, List.nodup_cons] at h
    cases hk : (q.1 == k) with
    | true =>
      have hqk : q.1 = k := beq_iff_eq.mp hk
      simp only [setA, hk, if_true, List.map_cons, List.nodup_cons]
      exact ⟨hqk ▸ h.1, h.2⟩
    | false =>
      simp only [setA, hk, Bool.false_eq_true, if_false, List.map_cons,
        List.nodup_cons]
      refine ⟨fun hc => ?_, ih h.2⟩
      rcases keys_setA k v rest q.1 hc with h' | h'
      · exact h.1 h'
      · exact absurd (beq_iff_eq.mpr h') (by simp [hk])

/-- The per-group validation fold keeps each stored record's `deployment`
equal to its map key, and keeps those keys distinct. -/
theorem validateFold_inv (cluster : String → String → Option RawES) :
    ∀ (groups : List (String × List DiscoveredSecret))
      (acc : List (String × DeploymentValidationResult) × List ProviderOp),
      (∀ p ∈ acc.1, p.2.deployment = p.1) → (acc.1.map Prod.fst).Nodup →
      (∀ p ∈ (groups.foldl (validateStep cluster) acc).1, p.2.deployment = p.1) ∧
      ((groups.foldl (validateStep cluster) acc).1.map Prod.fst).Nodup := by
  intro groups
  induction groups with
  | nil => intro acc h1 h2; exact ⟨h1, h2⟩
  | cons g gs ih =>
    intro acc h1 h2
    rw [List.foldl_cons]
    refine ih _ ?_ ?_
    · intro p hp
      rcases mem_setA _ _ _ p hp with h | h
      · rw [h]
      · exact h1 p h
    · exact nodup_keys_setA _ _ _ h2

/-! ### C6 -/


/-- C6: the aggregate validation result exposes the overall counts and its
`success` boolean is `true` exactly when the error count is `0` and the
synced count equals the total count of delivery-object statuses. -/
theorem validation_success_iff (secrets : List DiscoveredSecret)
    (cluster : String → String → Option RawES) :
    ((validateExternalSecretsM secrets cluster).2.success = true ↔
      ((validateExternalSecretsM secrets cluster).2.errorCount = 0 ∧
       (validateExternalSecretsM secrets cluster).2.syncedCount =
         (validateExternalSecretsM secrets cluster).2.totalExternalSecrets)) := by
  simp only [validateExternalSecretsM]
  simp [Bool.and_eq_true, beq_iff_eq]

/-- The scan's descriptor list is the in-order concatenation of the
per-file descriptor lists. -/
theorem scan_secrets_flatten (files : List FileEntry) (dep : Option String) :
    (scanValuesFiles files dep).secrets =
      ((filterFiles files dep).map parseValuesFile).flatten := by
  simp only [scanValuesFiles]
  simpa using foldl_append_eq_flatten parseValuesFile (filterFiles files dep) []

/-! ### C9 -/


/-- C9: `scan` is a deterministic function of the (fixed) input file listing
— running it twice yields the same result — and its descriptor list is the
in-order concatenation of each file's descriptors, with no reordering or
sorting. -/
theorem scan_deterministic_and_ordered (files : List FileEntry)
    (dep : Option String) :
    scanValuesFiles files dep = scanValuesFiles files dep ∧
    (scanValuesFiles files dep).secrets =
      ((filterFiles files dep).map parseValuesFile).flatten :=
  ⟨rfl, scan_secrets_flatten files dep⟩

/-! ### C10 -/


/-- C10: batch validation stores one result per deployment name (the stored
names are distinct even when descriptors were grouped per namespace), the
aggregate counts are reductions over those surviving per-deployment results
only, and on the concrete input where deployment `app` spans namespaces
`ns1` and `ns2` only the last-processed group (`ns2`, one status) survives,
so `totalExternalSecrets` is `1`, not one status per input descriptor
(`2`). -/
theorem validation_keyed_by_deployment_only
    (secrets : List DiscoveredSecret)
    (cluster : String → String → Option RawES) :
    (((validateExternalSecretsM secrets cluster).2.deployments.map
        (fun d => d.deployment)).Nodup ∧
     (validateExternalSecretsM secrets cluster).2.totalExternalSecrets =
       ((validateExternalSecretsM secrets cluster).2.deployments.map
         (fun d => d.externalSecrets.length)).sum ∧
     (validateExternalSecretsM secrets cluster).2.syncedCount =
       ((validateExternalSecretsM secrets cluster).2.deployments.map
         (fun d => (d.externalSecrets.filter (fun e => e.synced)).length)).sum ∧
     (validateExternalSecretsM secrets cluster).2.errorCount =
       ((validateExternalSecretsM secrets cluster).2.deployments.map
         (fun d => d.errorCount)).sum) ∧
    (∀ g : String → String → Option RawES,
      ((validateExternalSecretsM [exampleNs1Secret, exampleNs2Secret]
          g).2.deployments.map
        (fun d => (d.deployment, d.ns, d.externalSecrets.length))) =
        [("app", "ns2", 1)] ∧
      (validateExternalSecretsM [exampleNs1Secret, exampleNs2Secret]
          g).2.totalExternalSecrets = 1 ∧
      [exampleNs1Secret, exampleNs2Secret].length = 2) := by
  refine ⟨⟨?_, ?_, ?_, ?_⟩, ?_⟩
  · simp only [validateExternalSecretsM]
    have h := validateFold_inv cluster
      (List.foldl (fun acc s =>
        let key := s.deployment ++ ":" ++ nsStrOf s
        setA acc key ((acc.lookup key).getD [] ++ [s])) [] secrets)
      ([], []) (by intro p hp; simp at hp) (by simp)
    rw [List.map_map]
    have heq :
        ((List.foldl (fun acc s =>
          let key := s.deployment ++ ":" ++ nsStrOf s
          setA acc key ((acc.lookup key).getD [] ++ [s])) [] secrets).foldl
            (validateStep cluster) ([], [])).1.map
          ((fun d => d.deployment) ∘ (fun p => p.2)) =
        ((List.foldl (fun acc s =>
          let key := s.deployment ++ ":" ++ nsStrOf s
          setA acc key ((acc.lookup key).getD [] ++ [s])) [] secrets).foldl
            (validateStep cluster) ([], [])).1.map Prod.fst := by
      refine List.map_congr_left ?_
      intro p hp
      exact h.1 p hp
    rw [heq]
    exact h.2
  · simp only [validateExternalSecretsM]
    rw [foldl_add_map]
    exact Nat.zero_add _
  · simp only [validateExternalSecretsM]
    rw [foldl_add_map]
    exact Nat.zero_add _
  · simp only [validateExternalSecretsM]
    rw [foldl_add_map]
    exact Nat.zero_add _
  · intro g
    exact ⟨rfl, rfl, rfl⟩

/-! ### C5 -/


/-- `randomBytes` yields as many octets as requested. -/
theorem length_randomBytesM (n : Nat) (rnd : Nat → Nat) :
    (randomBytesM n rnd).length = n := by
  simp [randomBytesM]

/-- Every modelled random byte is an octet. -/
theorem mem_randomBytesM_lt (n : Nat) (rnd : Nat → Nat) (b : Nat)
    (hb : b ∈ randomBytesM n rnd) : b < 256 := by
  simp only [randomBytesM, List.mem_map, List.mem_range] at hb
  obtain ⟨i, -, rfl⟩ := hb
  exact Nat.mod_lt _ (by decide)

/-- `String.mk` and `length`/`data` commute (definitional). -/
theorem mkString_length (l : List Char) : (String.mk l).length = l.length := rfl

/-- `String.mk` and `data` (definitional). -/
theorem mkString_data (l : List Char) : (String.mk l).data = l := rfl

/-- `generatePassword` with all classes enabled picks from the full
charset. -/
theorem generatePassword_full_eq (L : Nat) (rnd : Nat → Nat) :
    generatePassword L true true true true rnd =
      .ok (String.mk ((randomBytesM L rnd).map
        (fun b => passwordCharset.getD (b % passwordCharset.length) 'a'))) := rfl

/-- `generateKey` picks from the charset without punctuation. -/
theorem generateKey_eq (L : Nat) (rnd : Nat → Nat) :
    generateKey L rnd =
      .ok (String.mk ((randomBytesM L rnd).map
        (fun b => keyCharset.getD (b % keyCharset.length) 'a'))) := rfl

/-- `generateSecretValue` with a non-zero requested length dispatches the
`password` kind at that length. -/
theorem genSV_password_len (L : Nat) (hL : L ≠ 0) (rnd : Nat → Nat) :
    generateSecretValue (genSpec "password" (some (L : Int))) rnd =
      generatePassword L true true true true rnd := by
  have h0 : ((L : Int) == 0) = false :=
    beq_eq_false_iff_ne.mpr (by exact_mod_cast hL)
  have hfL : (genSpec "password" (some (L : Int))).field "length" =
      some (.num (L : Int)) := rfl
  have hfT : (genSpec "password" (some (L : Int))).field "type" =
      some (.str "password") := rfl
  simp only [generateSecretValue, hfL, hfT, h0, Bool.false_eq_true, if_false,
    Int.toNat_natCast]

/-- As `genSV_password_len`, `key` kind. -/
theorem genSV_key_len (L : Nat) (hL : L ≠ 0) (rnd : Nat → Nat) :
    generateSecretValue (genSpec "key" (some (L : Int))) rnd =
      generateKey L rnd := by
  have h0 : ((L : Int) == 0) = false :=
    beq_eq_false_iff_ne.mpr (by exact_mod_cast hL)
  have hfL : (genSpec "key" (some (L : Int))).field "length" =
      some (.num (L : Int)) := rfl
  have hfT : (genSpec "key" (some (L : Int))).field "type" =
      some (.str "key") := rfl
  simp only [generateSecretValue, hfL, hfT, h0, Bool.false_eq_true, if_false,
    Int.toNat_natCast]

/-- As `genSV_password_len`, `token` kind. -/
theorem genSV_token_len (L : Nat) (hL : L ≠ 0) (rnd : Nat → Nat) :
    generateSecretValue (genSpec "token" (some (L : Int))) rnd =
      .ok (generateToken L rnd) := by
  have h0 : ((L : Int) == 0) = false :=
    beq_eq_false_iff_ne.mpr (by exact_mod_cast hL)
  have hfL : (genSpec "token" (some (L : Int))).field "length" =
      some (.num (L : Int)) := rfl
  have hfT : (genSpec "token" (some (L : Int))).field "type" =
      some (.str "token") := rfl
  simp only [generateSecretValue, hfL, hfT, h0, Bool.false_eq_true, if_false,
    Int.toNat_natCast]

/-- As `genSV_password_len`, `string` kind. -/
theorem genSV_string_len (L : Nat) (hL : L ≠ 0) (rnd : Nat → Nat) :
    generateSecretValue (genSpec "string" (some (L : Int))) rnd =
      .ok (generateBase64String L rnd) := by
  have h0 : ((L : Int) == 0) = false :=
    beq_eq_false_iff_ne.mpr (by exact_mod_cast hL)
  have hfL : (genSpec "string" (some (L : Int))).field "length" =
      some (.num (L : Int)) := rfl
  have hfT : (genSpec "string" (some (L : Int))).field "type" =
      some (.str "string") := rfl
  simp only [generateSecretValue, hfL, hfT, h0, Bool.false_eq_true, if_false,
    Int.toNat_natCast]

/-- Hex encoding yields two digits per octet. -/
theorem length_flatMap_byteToHex (bs : List Nat) :
    (bs.flatMap byteToHex).length = 2 * bs.length := by
  induction bs with
  | nil => rfl
  | cons b bs ih =>
    simp only [List.flatMap_cons, List.length_append, ih, byteToHex,
      List.length_cons, List.length_nil]
    omega

/-- `generateToken` yields `2 * L` characters for `L` octets. -/
theorem generateToken_length (L : Nat) (rnd : Nat → Nat) :
    (generateToken L rnd).length = 2 * L := by
  show ((randomBytesM L rnd).flatMap byteToHex).length = 2 * L
  rw [length_flatMap_byteToHex, length_randomBytesM]

/-- Both hex digits of an octet are hexadecimal digits. -/
theorem mem_byteToHex_hexDigits (b : Nat) (hb : b < 256) (c : Char)
    (hc : c ∈ byteToHex b) : c ∈ hexDigits.data := by
  have h16 : hexDigits.data.length = 16 := rfl
  simp only [byteToHex, List.mem_cons, List.not_mem_nil, or_false] at hc
  rcases hc with rfl | rfl
  · exact getD_mem_of_lt _ _ _ (by rw [h16]; omega)
  · exact getD_mem_of_lt _ _ _ (by rw [h16]; exact Nat.mod_lt _ (by decide))

/-- Standard base64 produces four digits per started three-octet group. -/
theorem base64Chunks_length (bs : List Nat) :
    (base64Chunks bs).length = 4 * ((bs.length + 2) / 3) := by
  induction bs using base64Chunks.induct with
  | case1 => rfl
  | case2 b1 => simp [base64Chunks]
  | case3 b1 b2 => simp [base64Chunks]
  | case4 b1 b2 b3 rest ih =>
    simp only [base64Chunks, List.length_cons, ih]
    omega

/-- C5 (amended): for every supported generator kind and positive requested
length `L`, `password` yields exactly `L` characters drawn from the union of
lower case, upper case, digits and the fixed punctuation set; `key` yields
`L` characters from that union minus punctuation; `token` yields the hex
encoding of `L` random octets (`2 L` hex characters); `string` yields the
standard base64 encoding of `L` random octets (`4⌈L/3⌉` characters); and an
absent length behaves as `32` for each kind.  (A requested length of `0` is
treated as absent by the source's `generator.length || 32` default — the
counterexample — which is the only amendment.) -/
theorem generateSecretValue_kinds (L : Nat) (rnd : Nat → Nat) (hL : L ≠ 0) :
    (∃ s, generateSecretValue (genSpec "password" (some (L : Int))) rnd =
        .ok s ∧ s.length = L ∧ (∀ c ∈ s.data, c ∈ passwordCharset)) ∧
    (∃ s, generateSecretValue (genSpec "key" (some (L : Int))) rnd =
        .ok s ∧ s.length = L ∧ (∀ c ∈ s.data, c ∈ keyCharset)) ∧
    (generateSecretValue (genSpec "token" (some (L : Int))) rnd =
        .ok (generateToken L rnd) ∧
      (generateToken L rnd).length = 2 * L ∧
      (∀ c ∈ (generateToken L rnd).data, c ∈ hexDigits.data)) ∧
    (generateSecretValue (genSpec "string" (some (L : Int))) rnd =
        .ok (generateBase64String L rnd) ∧
      generateBase64String L rnd =
        String.mk (base64Chunks (randomBytesM L rnd)) ∧
      (generateBase64String L rnd).length = 4 * ((L + 2) / 3)) ∧
    (generateSecretValue (genSpec "password" none) rnd =
        generateSecretValue (genSpec "password" (some 32)) rnd ∧
      generateSecretValue (genSpec "key" none) rnd =
        generateSecretValue (genSpec "key" (some 32)) rnd ∧
      generateSecretValue (genSpec "token" none) rnd =
        generateSecretValue (genSpec "token" (some 32)) rnd ∧
      generateSecretValue (genSpec "string" none) rnd =
        generateSecretValue (genSpec "string" (some 32)) rnd) := by
  refine ⟨?_, ?_, ?_, ?_, ⟨rfl, rfl, rfl, rfl⟩⟩
  · refine ⟨_, (genSV_password_len L hL rnd).trans (generatePassword_full_eq L rnd), ?_, ?_⟩
    · rw [mkString_length, List.length_map, length_randomBytesM]
    · intro c hc
      rw [mkString_data, List.mem_map] at hc
      obtain ⟨b, -, rfl⟩ := hc
      exact getD_mem_of_lt _ _ _ (Nat.mod_lt _ (by decide))
  · refine ⟨_, (genSV_key_len L hL rnd).trans (generateKey_eq L rnd), ?_, ?_⟩
    · rw [mkString_length, List.length_map, length_randomBytesM]
    · intro c hc
      rw [mkString_data, List.mem_map] at hc
      obtain ⟨b, -, rfl⟩ := hc
      exact getD_mem_of_lt _ _ _ (Nat.mod_lt _ (by decide))
  · refine ⟨genSV_token_len L hL rnd, generateToken_length L rnd, ?_⟩
    intro c hc
    rw [show (generateToken L rnd).data = (randomBytesM L rnd).flatMap byteToHex
      from rfl, List.mem_flatMap] at hc
    obtain ⟨b, hb, hcb⟩ := hc
    exact mem_byteToHex_hexDigits b (mem_randomBytesM_lt L rnd b hb) c hcb
  · refine ⟨genSV_string_len L hL rnd, rfl, ?_⟩
    rw [show generateBase64String L rnd =
      String.mk (base64Chunks (randomBytesM L rnd)) from rfl,
      mkString_length, base64Chunks_length, length_randomBytesM]

/-- C5, counterexample: requesting length `0` for the `token` kind yields a
64-character string (the `generator.length || 32` default kicks in), not the
`2 · 0 = 0` characters the claim's "any requested length L" implies. -/
theorem token_requested_length_zero_gives_64 :
    (generateSecretValue (genSpec "token" (some 0)) (fun i => i)).map
        (fun s => s.length) = Except.ok 64 ∧ ¬(64 = 2 * 0) :=
  ⟨rfl, by decide⟩

/-- C5 witness: the amended theorem applied at `L = 3` with the identity
byte stream. -/
theorem generateSecretValue_kinds_witness :
    (3 : Nat) ≠ 0 ∧
    (∃ s, generateSecretValue (genSpec "password" (some ((3 : Nat) : Int)))
        (fun i => i) = .ok s ∧ s.length = 3 ∧
        (∀ c ∈ s.data, c ∈ passwordCharset)) ∧
    (generateToken 3 (fun i => i)).length = 2 * 3 := by
  refine ⟨by decide, (generateSecretValue_kinds 3 (fun i => i) (by decide)).1,
    (generateSecretValue_kinds 3 (fun i => i) (by decide)).2.2.1.2.1⟩

/-! ### C8 -/


/-- C8: a document that fails to parse never raises — it contributes zero
descriptors — and the scan of any file listing containing it yields exactly
the descriptors of the same listing without it (total progress, not
fail-fast). -/
theorem scan_skips_malformed (xs ys : List FileEntry) (f : FileEntry)
    (dep : Option String) (hf : f.doc = none) :
    parseValuesFile f = [] ∧
    (scanValuesFiles (xs ++ f :: ys) dep).secrets =
      (scanValuesFiles (xs ++ ys) dep).secrets := by
  have hp : parseValuesFile f = [] := by
    simp only [parseValuesFile, hf]
  refine ⟨hp, ?_⟩
  rw [scan_secrets_flatten (xs ++ f :: ys) dep, scan_secrets_flatten (xs ++ ys) dep]
  cases dep with
  | none =>
    simp [filterFiles, hp]
  | some d =>
    by_cases hbd : (basename f.path ".yaml" == d) = true
    · simp [filterFiles, List.filter_append, List.filter_cons, hbd, hp]
    · simp only [Bool.not_eq_true] at hbd
      simp [filterFiles, List.filter_append, List.filter_cons, hbd, hp]

/-- C8 witness: the theorem applied to a listing of one good file and one
malformed file. -/
theorem scan_skips_malformed_witness :
    exampleMalformedFile.doc = none ∧
    parseValuesFile exampleMalformedFile = [] ∧
    (scanValuesFiles ([exampleValuesFile] ++ exampleMalformedFile :: [])
        none).secrets =
      (scanValuesFiles ([exampleValuesFile] ++ []) none).secrets := by
  refine ⟨rfl,
    (scan_skips_malformed [exampleValuesFile] [] exampleMalformedFile none rfl).1,
    (scan_skips_malformed [exampleValuesFile] [] exampleMalformedFile none rfl).2⟩

/-! ### C7 -/


/-- `checkCommand` under `--dry-run`: no provider calls, backend untouched;
it exits only on the missing-configuration gate. -/
theorem checkCommandM_dryRun (configOk initOk : Bool) (files : List FileEntry)
    (dep : Option String) (b : Backend) :
    checkCommandM true configOk initOk files dep b = ⟨[], b, !configOk⟩ := by
  cases configOk <;> simp [checkCommandM]

/-- `generateCommand` under `--dry-run`: no provider calls, backend
untouched; it exits only on the missing-configuration gate. -/
theorem generateCommandM_dryRun (yes configOk initOk confirmOk : Bool)
    (files : List FileEntry) (dep : Option String) (rnd : Nat → Nat → Nat)
    (manual : String → String) (b : Backend) :
    generateCommandM true yes configOk initOk confirmOk files dep rnd manual b
      = ⟨[], b, !configOk⟩ := by
  cases configOk <;> simp [generateCommandM]

/-- C7: a dry-run of the full sync pipeline performs no mutating remote
store operation (no create, add-version, upsert or delete) and no
convergence poll (stage 4 is skipped entirely), and leaves the remote
backend exactly as it was. -/
theorem dry_run_no_mutation_no_poll (yes configOk initOk confirmOk : Bool)
    (files : List FileEntry) (dep : Option String) (rnd : Nat → Nat → Nat)
    (manual : String → String) (cluster : String → String → Option RawES)
    (b : Backend) :
    ((syncCommandM true yes configOk initOk confirmOk files dep rnd manual
        cluster b).ops.all
      (fun op => !isMutatingOp op && !isPollOp op)) = true ∧
    (syncCommandM true yes configOk initOk confirmOk files dep rnd manual
        cluster b).backend = b := by
  cases configOk <;>
    simp [syncCommandM, checkCommandM_dryRun, generateCommandM_dryRun]

/-! ### C3 -/


/-- A non-exiting poll just advances the loop. -/
theorem waitLoop_step_no_exit (seq : Nat → ExternalSecretStatus)
    (tick fuel : Nat) (h : pollExit (seq tick) = false) :
    waitLoop seq tick (fuel + 1) = waitLoop seq (tick + 1) fuel := by
  rw [pollExit, Bool.or_eq_false_iff] at h
  simp [waitLoop, h.1, h.2]

/-- Skipping a non-exiting prefix of polls. -/
theorem waitLoop_skip (seq : Nat → ExternalSecretStatus) :
    ∀ (k tick fuel : Nat), k ≤ fuel →
      (∀ i, i < k → pollExit (seq (tick + i)) = false) →
      waitLoop seq tick fuel = waitLoop seq (tick + k) (fuel - k) := by
  intro k
  induction k with
  | zero => intro tick fuel _ _; simp
  | succ k ih =>
    intro tick fuel hk hno
    obtain ⟨fuel', rfl⟩ : ∃ f, fuel = f + 1 := ⟨fuel - 1, by omega⟩
    rw [waitLoop_step_no_exit seq tick fuel'
      (by simpa using hno 0 (by omega))]
    have hrec := ih (tick + 1) fuel' (by omega) (fun i hi => by
      have h := hno (i + 1) (by omega)
      have e : tick + (i + 1) = tick + 1 + i := by omega
      rw [e] at h
      exact h)
    rw [hrec]
    have e1 : tick + 1 + k = tick + (k + 1) := by omega
    have e2 : fuel' - k = fuel' + 1 - (k + 1) := by omega
    rw [e1, e2]

/-- The status extractor never reports an error message alongside a fully
converged (ready and synced) object: a present message is truthy and comes
with at least one failing condition. -/
theorem status_error_cases (name ns : String) (raw : Option RawES) :
    (getExternalSecretStatusM name ns raw).errorMessage = none ∨
    (truthyStrO (getExternalSecretStatusM name ns raw).errorMessage = true ∧
     ((getExternalSecretStatusM name ns raw).ready &&
      (getExternalSecretStatusM name ns raw).synced) = false) := by
  cases raw with
  | none => exact Or.inr ⟨rfl, rfl⟩
  | some r =>
    simp only [getExternalSecretStatusM]
    split
    · next h =>
      rw [Bool.and_eq_true] at h
      refine Or.inr ⟨h.2, ?_⟩
      rw [Bool.and_eq_false_iff]
      exact Or.inl (by simpa using h.1)
    · split
      · next h =>
        rw [Bool.and_eq_true] at h
        refine Or.inr ⟨h.2, ?_⟩
        rw [Bool.and_eq_false_iff]
        exact Or.inr (by simpa using h.1)
      · exact Or.inl rfl

/-- C3: `waitForConvergence` is a poll loop with exactly three exits, in
effective priority order.  After any non-exiting prefix of polls: a poll
whose extracted status carries an explicit error message returns that
message at once, regardless of the remaining timeout budget (the extractor
guarantees the message never coexists with ready-and-synced, so the code's
ready-check ordering cannot mask it); a poll with both `Ready` and
`SecretSynced` true returns `{synced := true, ready := true}` at once; and
if no poll within the `⌈timeoutMs/2000⌉` budget exits, the fixed timeout
result is returned. -/
theorem waitForConvergence_exit_priority (name ns : String)
    (cluster : Nat → Option RawES) (timeoutMs k : Nat) :
    (k < pollCount timeoutMs →
      (∀ i, i < k →
        pollExit (getExternalSecretStatusM name ns (cluster i)) = false) →
      ∀ m, (getExternalSecretStatusM name ns (cluster k)).errorMessage =
          some m →
        waitForExternalSecretSyncM name ns cluster timeoutMs =
          ⟨false, false, some m⟩) ∧
    (k < pollCount timeoutMs →
      (∀ i, i < k →
        pollExit (getExternalSecretStatusM name ns (cluster i)) = false) →
      (getExternalSecretStatusM name ns (cluster k)).ready = true →
      (getExternalSecretStatusM name ns (cluster k)).synced = true →
        waitForExternalSecretSyncM name ns cluster timeoutMs =
          ⟨true, true, none⟩) ∧
    ((∀ i, i < pollCount timeoutMs →
        pollExit (getExternalSecretStatusM name ns (cluster i)) = false) →
      waitForExternalSecretSyncM name ns cluster timeoutMs =
        ⟨false, false, some "Timeout waiting for ExternalSecret to sync"⟩) := by
  have hwait : waitForExternalSecretSyncM name ns cluster timeoutMs =
      waitLoop (fun i => getExternalSecretStatusM name ns (cluster i)) 0
        (pollCount timeoutMs) := rfl
  refine ⟨?_, ?_, ?_⟩
  · intro hk hno m hm
    rw [hwait, waitLoop_skip _ k 0 (pollCount timeoutMs) (by omega)
      (by simpa using hno)]
    obtain ⟨f, hf⟩ : ∃ f, pollCount timeoutMs - k = f + 1 :=
      ⟨pollCount timeoutMs - k - 1, by omega⟩
    rw [Nat.zero_add, hf]
    rcases status_error_cases name ns (cluster k) with h | h
    · rw [hm] at h; cases h
    · have hms : truthyStrO (some m) = true := hm ▸ h.1
      simp [waitLoop, h.2, hms, hm]
  · intro hk hno hr hs
    rw [hwait, waitLoop_skip _ k 0 (pollCount timeoutMs) (by omega)
      (by simpa using hno)]
    obtain ⟨f, hf⟩ : ∃ f, pollCount timeoutMs - k = f + 1 :=
      ⟨pollCount timeoutMs - k - 1, by omega⟩
    rw [Nat.zero_add, hf]
    simp [waitLoop, hr, hs]
  · intro hno
    rw [hwait, waitLoop_skip _ (pollCount timeoutMs) 0 (pollCount timeoutMs)
      (by omega) (by simpa using hno), Nat.sub_self]
    rfl

/-- C3 witness: the three exits of the theorem at concrete synthetic
delivery objects (error at the first poll, converged at the first poll, and
a full 60 s timeout). -/
theorem waitForConvergence_exit_priority_witness :
    waitForExternalSecretSyncM "db-credentials" "default" clusterErr 60000 =
      ⟨false, false, some "boom"⟩ ∧
    waitForExternalSecretSyncM "db-credentials" "default" clusterOk 60000 =
      ⟨true, true, none⟩ ∧
    waitForExternalSecretSyncM "db-credentials" "default" clusterPend 60000 =
      ⟨false, false, some "Timeout waiting for ExternalSecret to sync"⟩ := by
  refine ⟨?_, ?_, ?_⟩
  · exact (waitForConvergence_exit_priority "db-credentials" "default"
      clusterErr 60000 0).1 (by decide) (fun i hi => absurd hi (by omega))
      "boom" rfl
  · exact (waitForConvergence_exit_priority "db-credentials" "default"
      clusterOk 60000 0).2.1 (by decide) (fun i hi => absurd hi (by omega))
      rfl rfl
  · exact (waitForConvergence_exit_priority "db-credentials" "default"
      clusterPend 60000 0).2.2 (fun i hi => rfl)

/-! ### C2 -/


/-- Membership gives `contains`. -/
theorem contains_of_mem (l : List String) (a : String) (h : a ∈ l) :
    l.contains a = true := by
  rw [List.contains_iff_exists_mem_beq]
  exact ⟨a, h, by simp⟩

/-- The write loop attempts exactly one `createSecret` call per collected
value, in order, whether or not the call fails. -/
theorem createSecretsLoop_ops_eq :
    ∀ (entries : List (String × String)) (b : Backend),
      (createSecretsLoop entries b).1 =
        entries.map (fun e => ProviderOp.create e.1 e.2) := by
  intro entries
  induction entries with
  | nil => intro b; rfl
  | cons e rest ih =>
    intro b
    obtain ⟨k, v⟩ := e
    simp only [createSecretsLoop]
    cases h : createSecret k v b with
    | ok b' => simp [ih]
    | error err => simp [ih]

/-- Keys collected by the auto-generate loop come from its accumulator or
from the processed secrets' remote keys. -/
theorem autoGenLoop_keys (rnd : Nat → Nat → Nat) :
    ∀ (l : List (Nat × DiscoveredSecret)) (acc r : List (String × String)),
      autoGenLoop rnd l acc = .ok r →
      ∀ k ∈ r.map Prod.fst,
        k ∈ acc.map Prod.fst ∨ k ∈ l.map (fun p => p.2.remoteKey) := by
  intro l
  induction l with
  | nil =>
    intro acc r hr k hk
    cases hr
    exact Or.inl hk
  | cons p rest ih =>
    intro acc r hr k hk
    obtain ⟨i, s⟩ := p
    simp only [autoGenLoop] at hr
    rcases hgen : s.generator with - | gv
    · simp only [hgen] at hr
      rcases ih acc r hr k hk with h | h
      · exact Or.inl h
      · exact Or.inr (by simpa using Or.inr h)
    · simp only [hgen] at hr
      cases htr : gv.truthy with
      | false =>
        simp only [htr, Bool.false_eq_true, if_false] at hr
        rcases ih acc r hr k hk with h | h
        · exact Or.inl h
        · exact Or.inr (by simpa using Or.inr h)
      | true =>
        simp only [htr, if_true] at hr
        cases hsv : generateSecretValue gv (rnd i) with
        | error e => simp only [hsv] at hr; cases hr
        | ok v =>
          simp only [hsv] at hr
          rcases ih _ r hr k hk with h | h
          · rcases keys_setA s.remoteKey v acc k h with h' | h'
            · exact Or.inl h'
            · exact Or.inr (by simp [h'])
          · exact Or.inr (by simpa using Or.inr h)

/-- Keys collected by the manual-input loop come from its accumulator or
from the prompted secrets' remote keys. -/
theorem manualLoop_keys (manual : String → String) :
    ∀ (l : List DiscoveredSecret) (acc : List (String × String)),
      ∀ k ∈ (manualLoop manual l acc).map Prod.fst,
        k ∈ acc.map Prod.fst ∨ k ∈ l.map (fun s => s.remoteKey) := by
  intro l
  induction l with
  | nil => intro acc k hk; exact Or.inl hk
  | cons s rest ih =>
    intro acc k hk
    simp only [manualLoop] at hk
    rcases ih _ k hk with h | h
    · rcases keys_setA s.remoteKey (manual s.remoteKey) acc k h with h' | h'
      · exact Or.inl h'
      · exact Or.inr (by simp [h'])
    · exact Or.inr (by simpa using Or.inr h)

/-- Remote keys through `enum`. -/
theorem enum_map_remoteKey (l : List DiscoveredSecret) :
    l.enum.map (fun p => p.2.remoteKey) = l.map (fun s => s.remoteKey) := by
  rw [show (fun p : Nat × DiscoveredSecret => p.2.remoteKey) =
    (fun s : DiscoveredSecret => s.remoteKey) ∘ Prod.snd from rfl,
    ← List.map_map, List.enum_map_snd]

/-- Empty scan: `generateCommand` does nothing. -/
theorem generateCommandM_noSecrets (confirmOk : Bool) (files : List FileEntry)
    (dep : Option String) (rnd : Nat → Nat → Nat) (manual : String → String)
    (b : Backend) (h0 : ((scanValuesFiles files dep).totalSecrets == 0) = true) :
    generateCommandM false true true true confirmOk files dep rnd manual b =
      ⟨[], b, false⟩ := by
  simp [generateCommandM, h0]

/-- Nothing missing: `generateCommand` only initializes and checks. -/
theorem generateCommandM_noneMissing (confirmOk : Bool)
    (files : List FileEntry) (dep : Option String) (rnd : Nat → Nat → Nat)
    (manual : String → String) (b : Backend)
    (h0 : ((scanValuesFiles files dep).totalSecrets == 0) = false)
    (h1 : ((missingSecrets files dep b).length == 0) = true) :
    generateCommandM false true true true confirmOk files dep rnd manual b =
      ⟨[.initProvider, .checkStatus ((scanValuesFiles files dep).secrets.map
          (fun s => s.remoteKey))], b, false⟩ := by
  simp only [generateCommandM, Bool.not_true, Bool.not_false, Bool.false_and,
    Bool.false_eq_true, if_false, h0]
  simp only [missingSecrets] at h1
  simp [h1]

/-- A generator exception: `generateCommand` aborts after the check. -/
theorem generateCommandM_genError (confirmOk : Bool) (files : List FileEntry)
    (dep : Option String) (rnd : Nat → Nat → Nat) (manual : String → String)
    (b : Backend) (e : String)
    (h0 : ((scanValuesFiles files dep).totalSecrets == 0) = false)
    (h1 : ((missingSecrets files dep b).length == 0) = false)
    (hauto : autoGenLoop rnd ((missingSecrets files dep b).filter
      (fun s => genEnabled s.generator)).enum [] = .error e) :
    generateCommandM false true true true confirmOk files dep rnd manual b =
      ⟨[.initProvider, .checkStatus ((scanValuesFiles files dep).secrets.map
          (fun s => s.remoteKey))], b, true⟩ := by
  simp only [generateCommandM, Bool.not_true, Bool.not_false, Bool.false_and,
    Bool.false_eq_true, if_false, h0]
  simp only [missingSecrets] at h1 hauto
  simp only [h1, Bool.false_eq_true, if_false, hauto]
  simp

/-- The live write path of `generateCommand`: collected values are written
by the `createSecret` loop. -/
theorem generateCommandM_live (confirmOk : Bool) (files : List FileEntry)
    (dep : Option String) (rnd : Nat → Nat → Nat) (manual : String → String)
    (b : Backend) (sv0 : List (String × String))
    (h0 : ((scanValuesFiles files dep).totalSecrets == 0) = false)
    (h1 : ((missingSecrets files dep b).length == 0) = false)
    (hauto : autoGenLoop rnd ((missingSecrets files dep b).filter
      (fun s => genEnabled s.generator)).enum [] = .ok sv0) :
    (generateCommandM false true true true confirmOk files dep rnd manual
        b).ops =
      [.initProvider, .checkStatus ((scanValuesFiles files dep).secrets.map
          (fun s => s.remoteKey))] ++
        ((manualLoop manual ((missingSecrets files dep b).filter
            (fun s => !genEnabled s.generator)) sv0).map
          (fun e => ProviderOp.create e.1 e.2)) := by
  simp only [generateCommandM, Bool.not_true, Bool.not_false, Bool.false_and,
    Bool.false_eq_true, if_false, h0]
  simp only [missingSecrets] at h1 hauto
  simp only [h1, Bool.false_eq_true, if_false, hauto]
  simp only [createSecretsLoop_ops_eq, missingSecrets, List.cons_append,
    List.nil_append]
  rfl

/-- C2, counterexample: on a configuration with one missing generated
secret, the generate stage's remote writes are raw `createSecret` calls —
the trace contains a create op and no upsert op — and at a backend state
where the key already exists the stage's write loop leaves the backend
unchanged with the error caught (`0` created), whereas the upsert the claim
prescribes would have added a version. -/
theorem generate_stage_blind_creates :
    ((generateCommandM false true true true true [exampleValuesFile] none
        (fun _ _ => 0) (fun _ => "") []).ops.any isCreateOp) = true ∧
    ((generateCommandM false true true true true [exampleValuesFile] none
        (fun _ _ => 0) (fun _ => "") []).ops.all
      (fun op => !isUpsertOp op)) = true ∧
    createSecretsLoop [("env-db-password", "v2")]
        [("env-db-password", ["v1"])] =
      ([.create "env-db-password" "v2"], [("env-db-password", ["v1"])], 0) ∧
    upsertSecret "env-db-password" "v2" [("env-db-password", ["v1"])] =
      .ok (false, [("env-db-password", ["v1", "v2"])]) :=
  ⟨rfl, rfl, rfl, rfl⟩

/-- C2 (amended): in the generate stage (live run, config and auth in
place, confirmation passed), every mutating remote-store call is a direct
`createSecret` — never `upsertSecret` or `addSecretVersion` — whose key is
one the preceding check stage reported missing; the existence check happens
once in the check stage, not per write, so the write itself is a blind
create whose failure is caught per key. -/
theorem generate_stage_creates_only_missing (confirmOk : Bool)
    (files : List FileEntry) (dep : Option String) (rnd : Nat → Nat → Nat)
    (manual : String → String) (b : Backend) :
    ((generateCommandM false true true true confirmOk files dep rnd manual
        b).ops.all
      (fun op => !isMutatingOp op ||
        (isCreateOp op &&
          (missingRemoteKeys files dep b).contains (opKey op)))) = true := by
  rw [List.all_eq_true]
  intro op hop
  cases h0 : ((scanValuesFiles files dep).totalSecrets == 0) with
  | true =>
    rw [generateCommandM_noSecrets confirmOk files dep rnd manual b h0] at hop
    simp at hop
  | false =>
    cases h1 : ((missingSecrets files dep b).length == 0) with
    | true =>
      rw [generateCommandM_noneMissing confirmOk files dep rnd manual b h0 h1]
        at hop
      rcases (by simpa using hop : op = ProviderOp.initProvider ∨
          op = ProviderOp.checkStatus _) with rfl | rfl <;> rfl
    | false =>
      cases hauto : autoGenLoop rnd ((missingSecrets files dep b).filter
          (fun s => genEnabled s.generator)).enum [] with
      | error e =>
        rw [generateCommandM_genError confirmOk files dep rnd manual b e h0 h1
          hauto] at hop
        rcases (by simpa using hop : op = ProviderOp.initProvider ∨
            op = ProviderOp.checkStatus _) with rfl | rfl <;> rfl
      | ok sv0 =>
        rw [generateCommandM_live confirmOk files dep rnd manual b sv0 h0 h1
          hauto, List.mem_append] at hop
        rcases hop with hop | hop
        · rcases (by simpa using hop : op = ProviderOp.initProvider ∨
              op = ProviderOp.checkStatus _) with rfl | rfl <;> rfl
        · rw [List.mem_map] at hop
          obtain ⟨⟨k, v⟩, hkv, rfl⟩ := hop
          have hkmem : k ∈ (manualLoop manual ((missingSecrets files dep
              b).filter (fun s => !genEnabled s.generator)) sv0).map
              Prod.fst := List.mem_map_of_mem Prod.fst hkv
          have hmissing : k ∈ missingRemoteKeys files dep b := by
            rcases manualLoop_keys manual _ sv0 k hkmem with h | h
            · rcases autoGenLoop_keys rnd _ [] sv0 hauto k h with h' | h'
              · simp at h'
              · rw [enum_map_remoteKey] at h'
                rw [List.mem_map] at h'
                obtain ⟨s, hs, rfl⟩ := h'
                exact List.mem_map_of_mem _ (List.mem_of_mem_filter hs)
            · rw [List.mem_map] at h
              obtain ⟨s, hs, rfl⟩ := h
              exact List.mem_map_of_mem _ (List.mem_of_mem_filter hs)
          simpa [isMutatingOp, isCreateOp, opKey] using hmissing

end Monobase
